import Mathlib

/-!
Shallow embedding of the system-monitor application (Rust sources
src/application.rs, src/window.rs, src/main.rs) and proofs about its
process-table pipeline, frame scheduler and surface/window lifecycle.

Conventions of the embedding:
* Rust strings are modelled as `List Char`; `str::contains` is substring
  containment (`List.IsInfix` of the needle in the haystack);
  `str::to_lowercase` is modelled character-wise with `Char.toLower`
  (it coincides with the Rust function on ASCII process names).
* `u64::to_string` / integer `Display` is `Nat.toDigits 10` (decimal digits,
  no sign, no leading zeros, and precision flags such as `{:.1}` are ignored
  by Rust on integral types).
* `Instant` is a `Nat` timestamp in milliseconds; `Instant::elapsed` is
  truncated subtraction `now - t`, which like `Instant` never goes negative.
* `Vec::sort_by` is a stable sort by a total preorder comparator; every
  stable sort computes the same list, so it is embedded as `List.mergeSort`
  (Lean core's stable merge sort) with the comparator of the source.
* The winit event loop body (`run` in window.rs) is a step function from the
  mutable `State` and one event to the next state plus the side effects the
  body performs (snapshot pull, redraw request, surface reconfigure,
  `ControlFlow::Exit`, and the wait timeout it always arms).
-/

namespace SystemMonitor

/-! ## Process table pipeline (src/application.rs, `Application::processes_view`) -/

/-- Rust `str::to_lowercase`, character-wise (ASCII-faithful). -/
def lowercase (s : List Char) : List Char := s.map Char.toLower

/-- Rust `str::contains` with a string pattern: the needle occurs as a
contiguous substring of the haystack. -/
def containsStr (haystack needle : List Char) : Bool := decide (needle <:+: haystack)

/-- Rust integer `to_string` / `Display`: decimal digit text. -/
def natRepr (n : Nat) : List Char := Nat.toDigits 10 n

/-- One process record of a snapshot, with the fields the table uses.
The `cpu_usage` field is a 32-bit float in the source and is not modelled
(no claim depends on it). -/
structure ProcessRecord where
  pid : Nat
  name : List Char
  memoryBytes : Nat
  diskWrittenBytes : Nat
deriving DecidableEq

/-- The filter predicate of `processes_view`:
`pid.to_string().contains(&self.search) ||
 process.name().to_lowercase().contains(&self.search.to_lowercase())`. -/
def matchesQuery (search : List Char) (r : ProcessRecord) : Bool :=
  containsStr (natRepr r.pid) search ||
    containsStr (lowercase r.name) (lowercase search)

/-- Lexicographic `≤` on char lists: Rust `Ord::cmp` for strings
(byte-wise lexicographic, which agrees with char-wise on the lists we model)
weakened to its `is_le` form, as used by `sort_by`. -/
def lexLe : List Char → List Char → Bool
  | [], _ => true
  | _ :: _, [] => false
  | a :: as, b :: bs => if a < b then true else if b < a then false else lexLe as bs

/-- The sort key of `processes_view`: `process.name().to_lowercase()`. -/
def nameKey (r : ProcessRecord) : List Char := lowercase r.name

/-- The comparator handed to `sort_by`:
`process_a.name().to_lowercase().cmp(&process_b.name().to_lowercase())`. -/
def recordLe (a b : ProcessRecord) : Bool := lexLe (nameKey a) (nameKey b)

/-- The body of `processes_view`'s table: filter the snapshot's records with
the search predicate, then stably sort by the lowercased name. A snapshot is
the list of records in its iteration order. -/
def computeDisplayRows (snapshot : List ProcessRecord) (search : List Char) :
    List ProcessRecord :=
  (snapshot.filter (fun r => matchesQuery search r)).mergeSort recordLe

/-- The memory cell of a row: `format!("{:.1} MB", process.memory() / 1_000_000)`.
The division is truncating integer division; the `{:.1}` precision flag is
ignored by Rust's `Display` for integral types, so the cell shows the plain
decimal quotient followed by a space and `MB`. -/
def formatMemoryCell (memoryBytes : Nat) : List Char :=
  natRepr (memoryBytes / 1000000) ++ [' ', 'M', 'B']

/-! ## Surface/window lifecycle and frame scheduler (src/window.rs) -/

/-- Time is in milliseconds; `Duration::from_secs(1)`. -/
def oneSecond : Nat := 1000

/-- The fields of `wgpu::SurfaceConfiguration` the core reads or writes:
`width` and `height` are mutated by `State::resize`; the remaining fields are
fixed at startup and represented by two abstract tokens to record that the
code never touches them. -/
structure SurfaceConfig where
  width : Nat
  height : Nat
  format : Nat
  presentMode : Nat
deriving DecidableEq

/-- Sizes, as `winit::dpi::PhysicalSize<u32>`. -/
structure Size where
  width : Nat
  height : Nat
deriving DecidableEq

/-- Themes of `winit::window::Theme`. -/
inductive WTheme
  | light
  | dark
deriving DecidableEq

/-- The mutable fields of `State` in window.rs that the event loop reads or
writes: the surface configuration, the stored window size, the refresh clock
`last_updated : Option<Instant>`, and the current visual style. -/
structure WinState where
  config : SurfaceConfig
  size : Size
  lastUpdated : Option Nat
  visuals : Option WTheme
deriving DecidableEq

/-- Startup `State::new`: config mirrors the window size, `last_updated = None`. -/
def newWinState (format presentMode : Nat) (sz : Size) : WinState :=
  { config :=
      { width := sz.width, height := sz.height
        format := format, presentMode := presentMode }
    size := sz
    lastUpdated := none
    visuals := none }

/-- Method `State::resize`: only a size with positive width and height is stored and
written into the surface configuration (and the surface reconfigured, the
returned flag); a degenerate size leaves everything unchanged. -/
def resize (st : WinState) (newSize : Size) : WinState × Bool :=
  if 0 < newSize.width ∧ 0 < newSize.height then
    ({ st with
        size := newSize
        config :=
          { st.config with width := newSize.width, height := newSize.height } },
     true)
  else (st, false)

/-- Method `State::update`: `refresh_all` pulls a fresh snapshot (an external effect,
recorded by the caller) and `last_updated` is set to the current instant. -/
def update (st : WinState) (now : Nat) : WinState :=
  { st with lastUpdated := some now }

/-- Keys of `winit::event::VirtualKeyCode`, collapsed to the one key the code names. -/
inductive KeyCode
  | escape
  | otherKey
deriving DecidableEq

/-- States of `winit::event::ElementState`. -/
inductive PressState
  | pressed
  | released
deriving DecidableEq

/-- Errors of `wgpu::SurfaceError`. -/
inductive SurfaceErr
  | lost
  | outdated
  | outOfMemory
  | timeout
deriving DecidableEq

/-- The window events the loop's inner match distinguishes. -/
inductive WinEvent
  | closeRequested
  | keyboardInput (pressState : PressState) (keycode : Option KeyCode)
  | resized (newSize : Size)
  | scaleFactorChanged (newInnerSize : Size)
  | themeChanged (theme : WTheme)
  | otherWindowEvent

/-- One iteration's input to the event-loop body `run`: the winit event
(window events carry whether their window id matches the state's window), a
redraw request carrying the instant it is processed and the outcome of
`State::render`, `MainEventsCleared` carrying the current instant, or any
other event (user events, device events, ...). -/
inductive LoopEvent
  | windowEvent (sameWindow : Bool) (e : WinEvent)
  | redrawRequested (sameWindow : Bool) (now : Nat) (renderResult : Except SurfaceErr Unit)
  | mainEventsCleared (now : Nat)
  | otherEvent

/-- The state after one iteration of the loop body together with the effects
that iteration performed. -/
structure StepOut where
  state : WinState
  exits : Bool
  pulled : Bool
  redrawRequested : Bool
  configured : Bool
  waitTimeoutMs : Nat
deriving DecidableEq

/-- The refresh decision at the top of the `RedrawRequested` arm:
pull a snapshot on the very first redraw, otherwise only when at least one
second has elapsed since the last pull; returns the new state and whether a
pull (an `update`) happened. -/
def redrawPull (st : WinState) (now : Nat) : WinState × Bool :=
  match st.lastUpdated with
  | some t => if oneSecond ≤ now - t then (update st now, true) else (st, false)
  | none => (update st now, true)

/-- The `match state.render()` arm: on `Lost` run the full resize path with
the current size, on `OutOfMemory` set `ControlFlow::Exit`, on any other
error only print it. Returns (state, exits, configured). -/
def handleRenderOutcome (st : WinState) (res : Except SurfaceErr Unit) :
    WinState × Bool × Bool :=
  match res with
  | .ok _ => (st, false, false)
  | .error .lost =>
    let rc := resize st st.size
    (rc.1, false, rc.2)
  | .error .outOfMemory => (st, true, false)
  | .error _ => (st, false, false)

/-- The body of the `event_loop.run` closure in window.rs as a step function.
Every iteration first arms `control_flow.set_wait_timeout(1 s)`; the match
then mirrors the source arm for arm, including the window-id guards and the
catch-all arms. -/
def step (st : WinState) (ev : LoopEvent) : StepOut :=
  let base : StepOut :=
    { state := st, exits := false, pulled := false, redrawRequested := false,
      configured := false, waitTimeoutMs := oneSecond }
  match ev with
  | .windowEvent true we =>
    match we with
    | .closeRequested => { base with exits := true }
    | .keyboardInput .pressed (some .escape) => { base with exits := true }
    | .resized sz =>
      let rc := resize st sz
      { base with state := rc.1, configured := rc.2 }
    | .scaleFactorChanged sz =>
      let rc := resize st sz
      { base with state := rc.1, configured := rc.2 }
    | .themeChanged th => { base with state := { st with visuals := some th } }
    | _ => { base with redrawRequested := true }
  | .redrawRequested true now res =>
    let pr := redrawPull st now
    let hr := handleRenderOutcome pr.1 res
    { base with state := hr.1, pulled := pr.2, exits := hr.2.1, configured := hr.2.2 }
  | .mainEventsCleared now =>
    match st.lastUpdated with
    | some t =>
      if oneSecond ≤ now - t then { base with redrawRequested := true } else base
    | none => base
  | _ => base

/-- Process a sequence of redraw events (each with its timestamp, renders
succeeding) and collect the timestamps at which a snapshot pull happened. -/
def runRedraws : WinState → List Nat → List Nat
  | _, [] => []
  | st, now :: rest =>
    let out := step st (.redrawRequested true now (.ok ()))
    if out.pulled then now :: runRedraws out.state rest
    else runRedraws out.state rest

/-! ## Helper lemmas -/

theorem lexLe_refl : ∀ s : List Char, lexLe s s = true
  | [] => rfl
  | a :: as => by
    simp only [lexLe, if_neg (lt_irrefl a)]
    exact lexLe_refl as

theorem lexLe_trans :
    ∀ a b c : List Char, lexLe a b = true → lexLe b c = true → lexLe a c = true
  | [], _, _, _, _ => rfl
  | _ :: _, [], _, h1, _ => by simp [lexLe] at h1
  | _ :: _, _ :: _, [], _, h2 => by simp [lexLe] at h2
  | x :: as, y :: bs, z :: cs, h1, h2 => by
    simp only [lexLe] at h1 h2 ⊢
    by_cases hxy : x < y
    · by_cases hyz : y < z
      · simp [lt_trans hxy hyz]
      · by_cases hzy : z < y
        · simp [hyz, hzy] at h2
        · have hyz' : y = z := le_antisymm (not_lt.mp hzy) (not_lt.mp hyz)
          simp [hyz' ▸ hxy]
    · by_cases hyx : y < x
      · simp [hxy, hyx] at h1
      · have hxy' : x = y := le_antisymm (not_lt.mp hyx) (not_lt.mp hxy)
        subst hxy'
        simp only [if_neg hxy, if_neg hyx] at h1
        by_cases hyz : x < z
        · simp [hyz]
        · by_cases hzy : z < x
          · simp [hyz, hzy] at h2
          · simp only [if_neg hyz, if_neg hzy] at h2 ⊢
            exact lexLe_trans as bs cs h1 h2

theorem lexLe_total : ∀ a b : List Char, (lexLe a b || lexLe b a) = true
  | [], _ => by simp [lexLe]
  | _ :: _, [] => by simp [lexLe]
  | a :: as, b :: bs => by
    simp only [lexLe]
    rcases lt_trichotomy a b with h | h | h
    · simp [h]
    · subst h
      simp only [if_neg (lt_irrefl a)]
      exact lexLe_total as bs
    · simp [h, lt_asymm h]

theorem recordLe_trans (a b c : ProcessRecord) :
    recordLe a b = true → recordLe b c = true → recordLe a c = true :=
  lexLe_trans (nameKey a) (nameKey b) (nameKey c)

theorem recordLe_total (a b : ProcessRecord) : (recordLe a b || recordLe b a) = true :=
  lexLe_total (nameKey a) (nameKey b)

theorem digitChar_isDigit (d : Nat) (h : d < 10) : (Nat.digitChar d).isDigit = true := by
  interval_cases d <;> decide

theorem toDigitsCore_mem_isDigit :
    ∀ (fuel n : Nat) (acc : List Char), (∀ c ∈ acc, c.isDigit = true) →
      ∀ c ∈ Nat.toDigitsCore 10 fuel n acc, c.isDigit = true
  | 0, _, _, hacc, c, hc => hacc c hc
  | fuel + 1, n, acc, hacc, c, hc => by
    simp only [Nat.toDigitsCore] at hc
    have hd : (Nat.digitChar (n % 10)).isDigit = true :=
      digitChar_isDigit _ (Nat.mod_lt _ (by norm_num))
    split at hc
    · rcases List.mem_cons.mp hc with h | h
      · exact h ▸ hd
      · exact hacc c h
    · refine toDigitsCore_mem_isDigit fuel (n / 10) _ ?_ c hc
      intro c' hc'
      rcases List.mem_cons.mp hc' with h | h
      · exact h ▸ hd
      · exact hacc c' h

theorem natRepr_mem_isDigit (n : Nat) (c : Char) (hc : c ∈ natRepr n) :
    c.isDigit = true :=
  toDigitsCore_mem_isDigit (n + 1) n [] (by simp) c hc

theorem containsStr_nil (haystack : List Char) : containsStr haystack [] = true := by
  simp [containsStr]

theorem matchesQuery_nil (r : ProcessRecord) : matchesQuery [] r = true := by
  simp [matchesQuery, containsStr_nil, lowercase]

/-! ## Claims about the process table pipeline -/

/-- C1: for every snapshot and query, the display rows contain exactly the
records whose decimal PID text contains the query or whose lowercased name
contains the lowercased query, and the empty query displays every record. -/
theorem filter_correctness (snapshot : List ProcessRecord) (search : List Char) :
    (∀ r, r ∈ computeDisplayRows snapshot search ↔
        r ∈ snapshot ∧ matchesQuery search r = true) ∧
    (computeDisplayRows snapshot search).Perm
      (snapshot.filter (fun r => matchesQuery search r)) ∧
    (computeDisplayRows snapshot []).Perm snapshot := by
  refine ⟨?_, List.mergeSort_perm _ _, ?_⟩
  · intro r
    unfold computeDisplayRows
    rw [List.mem_mergeSort, List.mem_filter]
  · unfold computeDisplayRows
    have hfil : snapshot.filter (fun r => matchesQuery [] r) = snapshot :=
      List.filter_eq_self.mpr fun r _ => matchesQuery_nil r
    rw [hfil]
    exact List.mergeSort_perm _ _

/-- C2: the display rows are sorted ascending by lowercased name, and the
sort is stable: restricted to any one lowercased-name key, the output order
equals the order the records had in the (filtered) snapshot iteration. -/
theorem sort_stability (snapshot : List ProcessRecord) (search : List Char) :
    List.Pairwise (fun a b => recordLe a b = true)
      (computeDisplayRows snapshot search) ∧
    ∀ k : List Char,
      (computeDisplayRows snapshot search).filter (fun r => decide (nameKey r = k)) =
        (snapshot.filter (fun r => matchesQuery search r)).filter
          (fun r => decide (nameKey r = k)) := by
  constructor
  · exact List.sorted_mergeSort recordLe_trans recordLe_total _
  · intro k
    unfold computeDisplayRows
    set f := snapshot.filter (fun r => matchesQuery search r) with hf
    set p : ProcessRecord → Bool := fun r => decide (nameKey r = k) with hp
    have hall : ∀ r ∈ f.filter p, p r = true := fun r hr => (List.mem_filter.mp hr).2
    have hpw : (f.filter p).Pairwise (fun a b => recordLe a b = true) := by
      apply List.pairwise_of_forall_mem_list
      intro a ha b hb
      have hak : nameKey a = k := of_decide_eq_true (hall a ha)
      have hbk : nameKey b = k := of_decide_eq_true (hall b hb)
      unfold recordLe
      rw [hak, hbk]
      exact lexLe_refl k
    have hsub : List.Sublist (f.filter p) (f.mergeSort recordLe) :=
      List.sublist_mergeSort recordLe_trans recordLe_total hpw (List.filter_sublist f)
    have hsub2 : List.Sublist (f.filter p) ((f.mergeSort recordLe).filter p) := by
      have h2 := hsub.filter p
      rwa [List.filter_eq_self.mpr hall] at h2
    have hlen : ((f.mergeSort recordLe).filter p).length = (f.filter p).length :=
      ((List.mergeSort_perm f recordLe).filter p).length_eq
    exact (hsub2.eq_of_length hlen.symm).symm

/-- C3 counterexample: the memory cell for a record with
`memory_bytes = 800000000` is rendered as `800 MB`, not `800.0 MB` as the
claim states (`{:.1}` is ignored by Rust on integers). -/
theorem memoryCell_decimal_counterexample :
    formatMemoryCell 800000000 = "800 MB".toList ∧
    formatMemoryCell 800000000 ≠ "800.0 MB".toList := by decide

/-- C3 amended: the memory cell text is the truncating integer quotient
`memory_bytes / 1000000` rendered as plain decimal text with no fractional
digit (no `.` occurs), followed by ` MB`; 800000000 renders as `800 MB`. -/
theorem memoryCell_truncating_no_decimal (m : Nat) :
    ('.' ∉ formatMemoryCell m) ∧
    formatMemoryCell m = formatMemoryCell (1000000 * (m / 1000000)) ∧
    formatMemoryCell 800000000 = "800 MB".toList := by
  refine ⟨?_, ?_, by decide⟩
  · intro hmem
    unfold formatMemoryCell at hmem
    rcases List.mem_append.mp hmem with h | h
    · have := natRepr_mem_isDigit _ _ h
      simp at this
    · simp at h
  · unfold formatMemoryCell
    rw [Nat.mul_div_cancel_left _ (by norm_num)]

/-! ## Helper lemmas about the event-loop step -/

theorem step_redraw_ok (st : WinState) (now : Nat) :
    step st (.redrawRequested true now (.ok ())) =
      { state := (redrawPull st now).1, exits := false, pulled := (redrawPull st now).2,
        redrawRequested := false, configured := false, waitTimeoutMs := oneSecond } := rfl

theorem runRedraws_cons (st : WinState) (now : Nat) (rest : List Nat) :
    runRedraws st (now :: rest) =
      if (redrawPull st now).2 then now :: runRedraws (redrawPull st now).1 rest
      else runRedraws (redrawPull st now).1 rest := by
  simp only [runRedraws, step_redraw_ok]

theorem redrawPull_none (st : WinState) (now : Nat) (h : st.lastUpdated = none) :
    redrawPull st now = (update st now, true) := by
  simp [redrawPull, h]

theorem redrawPull_some (st : WinState) (t now : Nat) (h : st.lastUpdated = some t) :
    redrawPull st now =
      if oneSecond ≤ now - t then (update st now, true) else (st, false) := by
  simp [redrawPull, h]

theorem resize_lastUpdated (st : WinState) (sz : Size) :
    (resize st sz).1.lastUpdated = st.lastUpdated := by
  unfold resize
  split <;> rfl

theorem handleRenderOutcome_lastUpdated (st : WinState) (res : Except SurfaceErr Unit) :
    (handleRenderOutcome st res).1.lastUpdated = st.lastUpdated := by
  rcases res with e | _
  · cases e <;> simp [handleRenderOutcome, resize_lastUpdated]
  · rfl

theorem runRedraws_chain :
    ∀ (times : List Nat) (st : WinState),
      List.Chain' (fun a b => a + oneSecond ≤ b) (runRedraws st times) ∧
      (∀ t p, st.lastUpdated = some t → (runRedraws st times).head? = some p →
        t + oneSecond ≤ p)
  | [], st => by simp [runRedraws]
  | now :: rest, st => by
    rcases h : st.lastUpdated with _ | t
    · rw [runRedraws_cons, redrawPull_none st now h]
      simp only [if_true]
      constructor
      · rw [List.chain'_cons']
        refine ⟨?_, (runRedraws_chain rest (update st now)).1⟩
        intro p hp
        exact (runRedraws_chain rest (update st now)).2 now p rfl hp
      · intro t p ht _
        simp at ht
    · rw [runRedraws_cons, redrawPull_some st t now h]
      by_cases hel : oneSecond ≤ now - t
      · rw [if_pos hel]
        simp only [if_true]
        constructor
        · rw [List.chain'_cons']
          refine ⟨?_, (runRedraws_chain rest (update st now)).1⟩
          intro p hp
          exact (runRedraws_chain rest (update st now)).2 now p rfl hp
        · intro t' p ht' hp
          injection ht' with ht''
          subst ht''
          simp only [List.head?_cons, Option.some.injEq] at hp
          unfold oneSecond at hel ⊢
          omega
      · rw [if_neg hel]
        simp only [if_false]
        exact ⟨(runRedraws_chain rest st).1,
          fun t' p ht' hp => (runRedraws_chain rest st).2 t' p (h.trans ht') hp⟩

/-! ## Claims about the frame scheduler and window lifecycle -/

/-- C4: processing redraw events, the first one always pulls a snapshot (at
its own timestamp), afterwards a redraw pulls exactly when at least one
second elapsed since the last pull, and consecutive pull timestamps are at
least one second apart. -/
theorem refresh_cadence (times : List Nat) (format presentMode : Nat) (sz : Size)
    (st : WinState) (t now : Nat) :
    (runRedraws (newWinState format presentMode sz) times).head? = times.head? ∧
    List.Chain' (fun a b => a + oneSecond ≤ b)
      (runRedraws (newWinState format presentMode sz) times) ∧
    (step { st with lastUpdated := some t }
        (.redrawRequested true now (.ok ()))).pulled = decide (oneSecond ≤ now - t) := by
  refine ⟨?_, (runRedraws_chain times _).1, ?_⟩
  · cases times with
    | nil => simp [runRedraws]
    | cons now' rest =>
      rw [runRedraws_cons, redrawPull_none _ _ rfl]
      simp
  · rw [step_redraw_ok]
    rw [redrawPull_some _ t now rfl]
    by_cases hel : oneSecond ≤ now - t <;> simp [hel]

/-- C5: on a frame render error, a lost surface runs exactly the full resize
path with the current size (which reconfigures the surface with the stored
dimensions whenever they are positive), out-of-memory sets the exit control
flow and changes nothing else, and outdated or timeout change no state. -/
theorem render_error_handling (st : WinState) (w h : Nat) :
    handleRenderOutcome st (.error .lost) =
      ((resize st st.size).1, false, (resize st st.size).2) ∧
    handleRenderOutcome st (.error .outOfMemory) = (st, true, false) ∧
    handleRenderOutcome st (.error .outdated) = (st, false, false) ∧
    handleRenderOutcome st (.error .timeout) = (st, false, false) ∧
    (handleRenderOutcome { st with size := ⟨w + 1, h + 1⟩ } (.error .lost)).2.2 = true ∧
    (handleRenderOutcome { st with size := ⟨w + 1, h + 1⟩ } (.error .lost)).1.config.width
      = w + 1 ∧
    (handleRenderOutcome { st with size := ⟨w + 1, h + 1⟩ } (.error .lost)).1.config.height
      = h + 1 := by
  refine ⟨rfl, rfl, rfl, rfl, ?_, ?_, ?_⟩ <;> simp [handleRenderOutcome, resize]

/-- C6: a resize with zero width or zero height changes nothing and does not
reconfigure; a resize with positive width and height stores the size, writes
exactly those dimensions into the surface config and reconfigures. -/
theorem resize_guard (st : WinState) (w h : Nat) :
    resize st ⟨0, h⟩ = (st, false) ∧
    resize st ⟨w, 0⟩ = (st, false) ∧
    (resize st ⟨w + 1, h + 1⟩).1.config.width = w + 1 ∧
    (resize st ⟨w + 1, h + 1⟩).1.config.height = h + 1 ∧
    (resize st ⟨w + 1, h + 1⟩).1.size = ⟨w + 1, h + 1⟩ ∧
    (resize st ⟨w + 1, h + 1⟩).2 = true := by
  refine ⟨?_, ?_, ?_, ?_, ?_, ?_⟩ <;> simp [resize]

/-- C7: every loop iteration arms the one-second wait timeout, and at
`MainEventsCleared` a redraw is requested exactly when at least one second
has elapsed since the last snapshot pull, so the UI keeps refreshing while
idle. -/
theorem idle_tick_request (st : WinState) (ev : LoopEvent) (t now : Nat) :
    (step st ev).waitTimeoutMs = oneSecond ∧
    (step { st with lastUpdated := some t } (.mainEventsCleared now)).redrawRequested =
      decide (oneSecond ≤ now - t) := by
  constructor
  · cases ev with
    | windowEvent sw we =>
      cases sw
      · rfl
      · cases we with
        | keyboardInput ps kc =>
          cases ps <;> rcases kc with _ | k <;> try rfl
          all_goals cases k <;> rfl
        | closeRequested => rfl
        | resized sz => rfl
        | scaleFactorChanged sz => rfl
        | themeChanged th => rfl
        | otherWindowEvent => rfl
    | redrawRequested sw now' res => cases sw <;> rfl
    | mainEventsCleared now' =>
      rcases h : st.lastUpdated with _ | t'
      · simp [step, h]
      · simp only [step, h]
        split <;> rfl
    | otherEvent => rfl
  · simp only [step]
    by_cases hel : oneSecond ≤ now - t <;> simp [hel]

/-- C8: an event sets the exit control flow exactly when it is a
close-requested window event, a pressed-Escape keyboard event (for the
state's window), or a redraw whose render fails with out-of-memory. -/
theorem shutdown_characterization (st : WinState) (ev : LoopEvent) :
    (step st ev).exits = true ↔
      ev = .windowEvent true .closeRequested ∨
      ev = .windowEvent true (.keyboardInput .pressed (some .escape)) ∨
      ∃ now : Nat, ev = .redrawRequested true now (.error .outOfMemory) := by
  cases ev with
  | windowEvent sw we =>
    cases sw
    · simp [step]
    · cases we with
      | closeRequested => simp [step]
      | keyboardInput ps kc =>
        cases ps
        · rcases kc with _ | k
          · simp [step]
          · cases k <;> simp [step]
        · rcases kc with _ | k
          · simp [step]
          · cases k <;> simp [step]
      | resized sz => simp [step]
      | scaleFactorChanged sz => simp [step]
      | themeChanged th => simp [step]
      | otherWindowEvent => simp [step]
  | redrawRequested sw now res =>
    cases sw
    · simp [step]
    · rcases res with e | _
      · cases e <;> simp [step, handleRenderOutcome]
      · simp [step, handleRenderOutcome]
  | mainEventsCleared now =>
    rcases h : st.lastUpdated with _ | t
    · simp [step, h]
    · simp only [step, h]
      split <;> simp
  | otherEvent => simp [step]

/-- C9: `update` always records the pull instant, and once the last-refresh
timestamp is present no event-loop step ever makes it absent again. -/
theorem last_refresh_persists (st : WinState) (t now : Nat) (ev : LoopEvent) :
    (update st now).lastUpdated = some now ∧
    ((step { st with lastUpdated := some t } ev).state.lastUpdated).isSome = true := by
  refine ⟨rfl, ?_⟩
  cases ev with
  | windowEvent sw we =>
    cases sw
    · rfl
    · cases we with
      | keyboardInput ps kc =>
        cases ps <;> rcases kc with _ | k <;> try rfl
        all_goals cases k <;> rfl
      | closeRequested => rfl
      | resized sz => simp [step, resize_lastUpdated]
      | scaleFactorChanged sz => simp [step, resize_lastUpdated]
      | themeChanged th => rfl
      | otherWindowEvent => rfl
  | redrawRequested sw now' res =>
    cases sw
    · rfl
    · simp only [step, handleRenderOutcome_lastUpdated]
      rw [redrawPull_some _ t now' rfl]
      split <;> simp [update]
  | mainEventsCleared now' =>
    simp only [step]
    split <;> rfl
  | otherEvent => rfl

/-- C10: a keyboard event for Escape in the released state falls into the
catch-all arm: it does not exit, changes no state, and only requests a
redraw. -/
theorem escape_released_no_shutdown (st : WinState) :
    step st (.windowEvent true (.keyboardInput .released (some .escape))) =
      { state := st, exits := false, pulled := false, redrawRequested := true,
        configured := false, waitTimeoutMs := oneSecond } := rfl

end SystemMonitor
